import Mathlib

/-!
Verification development for the repository provenance analysis pipeline
(supabase/functions/analyze-repo/index.ts). Each definition is a shallow
embedding of the corresponding source function; network effects are made
explicit by passing, for every call site, a function from attempt number to
the outcome the remote produced on that attempt, and a function from attempt
number to the pseudo-random sample used for jitter on that attempt.
-/

set_option autoImplicit false
set_option maxRecDepth 4096

namespace AnalyzeRepo

/-- What one call of the underlying fetch produced on a given attempt:
either a response carrying an HTTP status code, or a thrown
transport/network exception. -/
inductive AttemptOutcome where
  | resp (status : Nat)
  | exn
  deriving DecidableEq, Repr

/-- The value that fetchWithExponentialBackoff ultimately delivers: a
response with a status code, or a propagated exception. -/
inductive FetchResult where
  | response (status : Nat)
  | thrown
  deriving DecidableEq, Repr

/-- Observable trace of one run of fetchWithExponentialBackoff: the final
result, the number of attempts performed, and the list of backoff delays
awaited between attempts (in milliseconds, as exact rationals). -/
structure RunTrace where
  result : FetchResult
  attempts : Nat
  delays : List ℚ
  deriving DecidableEq, Repr

/-- The total delay computed by the source before a retry that follows the
failed attempt with 0-based index a:
delay = initialDelay * 2 ^ a, jitter = rand * 0.1 * delay (rand models the
Math.random() sample in [0, 1)), totalDelay = delay + jitter. -/
def delayFor (initialDelay : ℚ) (rand : Nat → ℚ) (a : Nat) : ℚ :=
  initialDelay * 2 ^ a + rand a * (1 / 10) * (initialDelay * 2 ^ a)

/-- Prepend one retry step (its awaited delay) to the trace of the rest of
the run. -/
def retryStep (d : ℚ) (rest : RunTrace) : RunTrace :=
  ⟨rest.result, rest.attempts + 1, d :: rest.delays⟩

/-- Loop body of fetchWithExponentialBackoff. The source iterates attempt
from 0 to maxRetries; here remaining = maxRetries - attempt is the
recursion measure, so the source guard (attempt === maxRetries) is
(remaining = 0).
Classification per attempt, in source order: response.ok (2xx) or a 4xx
other than 429 returns the response at once; 429 or 5xx retries after a
backoff delay, except on the last attempt where the failing response is
returned; any other status returns the response at once; a thrown
exception retries after the same backoff delay, except on the last attempt
where it propagates. -/
def fwebGo (f : Nat → AttemptOutcome) (rand : Nat → ℚ) (initialDelay : ℚ) :
    Nat → Nat → RunTrace
  | attempt, 0 =>
    -- Last attempt (attempt === maxRetries in the source): every response
    -- branch returns the response itself; an exception propagates.
    match f attempt with
    | .resp s => ⟨.response s, 1, []⟩
    | .exn => ⟨.thrown, 1, []⟩
  | attempt, r + 1 =>
    match f attempt with
    | .resp s =>
      if (200 ≤ s ∧ s < 300) ∨ (400 ≤ s ∧ s < 500 ∧ s ≠ 429) then
        ⟨.response s, 1, []⟩
      else if s = 429 ∨ 500 ≤ s then
        retryStep (delayFor initialDelay rand attempt)
          (fwebGo f rand initialDelay (attempt + 1) r)
      else
        ⟨.response s, 1, []⟩
    | .exn =>
      retryStep (delayFor initialDelay rand attempt)
        (fwebGo f rand initialDelay (attempt + 1) r)

/-- fetchWithExponentialBackoff(url, options, maxRetries, initialDelay),
abstracted over the per-attempt outcomes f and jitter samples rand. -/
def fetchWithExponentialBackoff (f : Nat → AttemptOutcome) (rand : Nat → ℚ)
    (maxRetries : Nat) (initialDelay : ℚ) : RunTrace :=
  fwebGo f rand initialDelay 0 maxRetries

/-- The parsed JSON completion, as far as the handler inspects it: every
field of the expected shape may be absent. JSON numeric fields are
modelled as integers (the shape the prompt requests). -/
structure ParsedIndicators where
  codePatterns : Option (List String)
  commitPatterns : Option (List String)
  documentationPatterns : Option (List String)
  deriving DecidableEq, Repr

structure ParsedCompletion where
  vciScore : Option Int
  analysis : Option String
  confidence : Option Int
  indicators : Option ParsedIndicators
  deriving DecidableEq, Repr

/-- The object the handler serializes on success. analysis and indicators
stay optional because a parsed completion may lack them and the source
never fills them in after parsing. -/
structure AnalysisResult where
  vciScore : Int
  analysis : Option String
  confidence : Int
  indicators : Option ParsedIndicators
  deriving DecidableEq, Repr

/-- The generic analysis sentence of the fallback result. -/
def fallbackAnalysisText : String :=
  "Unable to perform detailed analysis. This appears to be a standard repository."

/-- The fallback object assigned when JSON.parse of the completion throws. -/
def fallbackCompletion : ParsedCompletion :=
  ⟨some 50, some fallbackAnalysisText, some 30, some ⟨some [], some [], some []⟩⟩

/-- JavaScript x || 50 on a JSON numeric field: undefined (absent) and 0
are falsy and give 50; every other integer is truthy. -/
def orFalsy50 (x : Option Int) : Int :=
  match x with
  | none => 50
  | some v => if v = 0 then 50 else v

/-- Math.max(0, Math.min(100, v)). -/
def clamp0100 (v : Int) : Int := max 0 (min 100 v)

/-- The JSON value JSON.parse can deliver for a completion, as far as the
sanitize block distinguishes it: an object (with each expected field
possibly absent), the null literal, a non-object primitive (number, string
or boolean), or an array. -/
inductive CompletionJson where
  | jobject (c : ParsedCompletion)
  | jnull
  | jprim
  | jarray
  deriving DecidableEq, Repr

/-- What the interpret/normalize stage produces for one completion:
a well-formed AnalysisResult object serialized into a 200 body; a 200
whose serialized body is an array carrying none of the score fields
(JSON.stringify drops named properties added to an array); or a TypeError
thrown out of the sanitize block into the serve catch, which answers the
500 error body. -/
inductive InterpretOutcome where
  | ok (r : AnalysisResult)
  | okArrayBody
  | typeError
  deriving DecidableEq, Repr

/-- The two sanitize lines (272-273) applied to an object-shaped record:
overwrite vciScore and confidence with Math.max(0, Math.min(100, x || 50)),
carry analysis and indicators over untouched. -/
def sanitizeScores (r : ParsedCompletion) : AnalysisResult :=
  ⟨clamp0100 (orFalsy50 r.vciScore), r.analysis,
    clamp0100 (orFalsy50 r.confidence), r.indicators⟩

/-- The interpret/normalize stage of the handler (lines 252-273):
JSON.parse failure (parsed = none) substitutes the fallback object, which
is then sanitized like any object. A parse result that is an object is
sanitized and serialized. A parse result of null makes line 272 throw a
TypeError when it evaluates the property reference on null; a non-object
primitive makes the strict-mode property assignment on line 272 throw a
TypeError (module code is strict); both land in the serve catch (500). A
parse result that is an array accepts both assignments, but
JSON.stringify of an array drops the added named fields, so the 200 body
carries no score fields. -/
def interpret (parsed : Option CompletionJson) : InterpretOutcome :=
  match parsed with
  | none => .ok (sanitizeScores fallbackCompletion)
  | some (.jobject c) => .ok (sanitizeScores c)
  | some .jnull => .typeError
  | some .jprim => .typeError
  | some .jarray => .okArrayBody

/-- A completion whose JSON.parse either fails (none) or yields an
object — the domain on which the stage returns a well-formed
AnalysisResult. -/
def objectCompletion : Option ParsedCompletion → Option CompletionJson
  | none => none
  | some c => some (.jobject c)

structure GitHubRepo where
  owner : String
  repo : String
  deriving DecidableEq, Repr

/-- Remove a literal leading character sequence: some remainder when the
second list starts with the first, none otherwise. -/
def dropPrefixChars : List Char → List Char → Option (List Char)
  | [], cs => some cs
  | _ :: _, [] => none
  | p :: ps, c :: cs => if c = p then dropPrefixChars ps cs else none

/-- Split a character list at every slash (the separator of the source
regex); n slashes yield n + 1 groups, so a trailing slash yields a final
empty group. -/
def splitOnSlash : List Char → List (List Char)
  | [] => [[]]
  | c :: cs =>
    if c = '/' then [] :: splitOnSlash cs
    else
      match splitOnSlash cs with
      | [] => [[c]]
      | g :: gs => (c :: g) :: gs

/-- Inverse of splitOnSlash, used to characterize it: rejoin groups with a
slash between consecutive groups. -/
def joinSlash : List (List Char) → List Char
  | [] => []
  | [g] => g
  | g :: gs => g ++ '/' :: joinSlash gs

/-- The replace(/\.git$/, "") step of parseGitHubUrl: drop the last four
characters when they are exactly ".git". -/
def stripGitSuffix (l : List Char) : List Char :=
  if l.drop (l.length - 4) = ['.', 'g', 'i', 't'] then l.take (l.length - 4) else l

/-- The capture-group step of parseGitHubUrl: accept exactly two nonempty
groups, or two nonempty groups followed by the empty group a trailing
slash leaves behind; strip one trailing .git from the name. -/
def locatorOfGroups : List (List Char) → Option GitHubRepo
  | [owner, name] =>
    if owner ≠ [] ∧ name ≠ [] then some ⟨⟨owner⟩, ⟨stripGitSuffix name⟩⟩ else none
  | [owner, name, []] =>
    if owner ≠ [] ∧ name ≠ [] then some ⟨⟨owner⟩, ⟨stripGitSuffix name⟩⟩ else none
  | _ => none

/-- parseGitHubUrl (lines 301-318). The source matches the whole URL
against ^https://github\.com/([^/]+)/([^/]+)/?$ — a fixed scheme and host,
then exactly two nonempty slash-free segments, with one optional trailing
slash — and strips a trailing .git from the second segment. After removing
the fixed prefix, splitting the remainder at slashes yields [owner, name]
for no trailing slash and [owner, name, []] for one; that is exactly the
regex language, since the two capture groups admit every character except
the slash. -/
def parseGitHubUrl (url : String) : Option GitHubRepo :=
  match dropPrefixChars "https://github.com/".data url.data with
  | none => none
  | some rest => locatorOfGroups (splitOnSlash rest)

structure CommitInfo where
  message : String
  author : String
  date : String
  deriving DecidableEq, Repr

structure RepoFile where
  name : String
  content : String
  path : String
  deriving DecidableEq, Repr

/-- The repoData object assembled by the handler (lines 161-169). -/
structure RepoData where
  readme : Option String
  files : List RepoFile
  commits : List CommitInfo
  deriving DecidableEq, Repr

/-- fetchGitHubFile (lines 321-360) after its fetchWithExponentialBackoff
call: a thrown exception is caught and yields null; status 404 yields
null; any other non-2xx status yields null; a 2xx response yields the
base64-decoded content when the body carries content with base64 encoding
(decodedBody = some text) and null otherwise (decodedBody = none). -/
def fetchGitHubFile (t : RunTrace) (decodedBody : Option String) : Option String :=
  match t.result with
  | .thrown => none
  | .response s =>
    if s = 404 then none
    else if ¬ (200 ≤ s ∧ s < 300) then none
    else decodedBody

/-- fetchGitHubReadme (lines 363-401): identical branch structure to
fetchGitHubFile, against the readme endpoint. -/
def fetchGitHubReadme (t : RunTrace) (decodedBody : Option String) : Option String :=
  match t.result with
  | .thrown => none
  | .response s =>
    if s = 404 then none
    else if ¬ (200 ≤ s ∧ s < 300) then none
    else decodedBody

/-- fetchGitHubCommits (lines 404-436): a thrown exception (also one raised
while mapping a malformed body) yields []; any non-2xx status yields [];
a 2xx response yields the mapped commit triples (body). -/
def fetchGitHubCommits (t : RunTrace) (body : List CommitInfo) : List CommitInfo :=
  match t.result with
  | .thrown => []
  | .response s =>
    if ¬ (200 ≤ s ∧ s < 300) then [] else body

/-- The fixed rubric block appended at the end of the prompt
(template literal, lines 468-499). -/
def rubricBlock : String :=
  "Based on the above repository data, analyze for AI assistance patterns:\n\n" ++
  "Code Patterns to look for:\n" ++
  "- Consistent formatting and style across all files\n" ++
  "- Perfect documentation coverage and formatting\n" ++
  "- Systematic error handling patterns\n" ++
  "- Generic variable names and function structures\n" ++
  "- Boilerplate-heavy code structure\n" ++
  "- Overly comprehensive type definitions\n" ++
  "- Perfect code organization\n\n" ++
  "Commit Patterns to analyze:\n" ++
  "- Templated or overly formal commit messages\n" ++
  "- Large, infrequent commits vs. small iterative ones\n" ++
  "- Perfect commit message formatting and grammar\n" ++
  "- Lack of \"work in progress\" or experimental commits\n" ++
  "- Commits that add complete features at once\n\n" ++
  "Documentation Patterns:\n" ++
  "- Overly comprehensive README with perfect formatting\n" ++
  "- Perfect grammar and professional language throughout\n" ++
  "- Generic project descriptions\n" ++
  "- Complete API documentation from the start\n" ++
  "- Lack of personal voice or informal language\n\n" ++
  "Provide a detailed JSON response with:\n" ++
  "- vciScore: 0-100 (likelihood of AI assistance)\n" ++
  "- analysis: Clear explanation of your assessment\n" ++
  "- confidence: How certain you are (0-100)\n" ++
  "- indicators: Specific patterns found in each category\n\n" ++
  "Be thorough but concise in your analysis."

/-- createDetailedAnalysisPrompt (lines 438-502). Faithful rendering order:
header line with the URL; README excerpt capped at 2000 characters, or the
no-README notice (note the source tests if (readme), so an empty README
string is falsy and also yields the notice); up to 5 file excerpts capped
at 1000 characters each, or the no-files notice; up to 15 commit lines, or
the no-commits notice; then the fixed rubric block. -/
def createDetailedAnalysisPrompt (githubUrl : String) (repoData : RepoData) : String :=
  let header := "Analyze this GitHub repository for AI development patterns: " ++
    githubUrl ++ "\n\n"
  let readmePart :=
    match repoData.readme with
    | some r =>
      if r = "" then "No README file found.\n\n"
      else "README Content (first 2000 chars):\n" ++ r.take 2000 ++ "\n\n"
    | none => "No README file found.\n\n"
  let filesPart :=
    if repoData.files.length > 0 then
      "Code Files Analysis:\n" ++
        String.join ((repoData.files.take 5).map (fun file =>
          "File: " ++ file.path ++ "\n" ++ file.content.take 1000 ++ "\n\n"))
    else "No package.json or key files found.\n\n"
  let commitsPart :=
    if repoData.commits.length > 0 then
      "Recent Commit Messages (last " ++ toString repoData.commits.length ++
        " commits):\n" ++
        String.join ((repoData.commits.take 15).map (fun c =>
          "- \"" ++ c.message ++ "\" by " ++ c.author ++ " on " ++ c.date ++ "\n")) ++
        "\n"
    else "No commit history available.\n\n"
  header ++ readmePart ++ filesPart ++ commitsPart ++ rubricBlock

/-- The ways the serve handler responds: a 200 with the serialized
AnalysisResult, a 200 whose body is a serialized array without the score
fields (completion parsed to an array), a 400 with an error message, or
the catch-all 500. -/
inductive HandlerOutput where
  | success (result : AnalysisResult)
  | successArrayBody
  | badRequest (message : String)
  | serverError
  deriving DecidableEq, Repr

/-- The serve handler (lines 107-298) for a POST request, abstracted over
its environment: whether the two credentials are configured, the githubUrl
field of the request body (none when absent, and the source also treats
the empty string as absent), per-attempt outcomes and jitter samples for
the three GitHub fetches and the OpenAI call, the decoded bodies the
successful GitHub fetches would deliver, and the completion text: none
models a response whose body yields no choices[0].message.content (the
source then throws), some parsed models a present completion whose
JSON.parse result is parsed (none inside = parse failure, handled by the
fallback; a CompletionJson inside = the parsed JSON value). GitHub fetches
run under maxRetries 2 and initial delay 500; the OpenAI call under
maxRetries 3 and initial delay 1000. -/
def handler (openaiKeySet githubPatSet : Bool) (githubUrl : Option String)
    (readmeF manifestF commitsF inferF : Nat → AttemptOutcome)
    (randR randM randC randI : Nat → ℚ)
    (readmeBody manifestBody : Option String) (commitsBody : List CommitInfo)
    (completion : Option (Option CompletionJson)) : HandlerOutput :=
  if ¬ openaiKeySet then .serverError
  else if ¬ githubPatSet then .serverError
  else
    match githubUrl with
    | none => .badRequest "GitHub URL is required"
    | some u =>
      if u = "" then .badRequest "GitHub URL is required"
      else
        match parseGitHubUrl u with
        | none => .badRequest "Invalid GitHub URL format"
        | some _repoInfo =>
          let readmeContent :=
            fetchGitHubReadme (fetchWithExponentialBackoff readmeF randR 2 500) readmeBody
          let packageJsonContent :=
            fetchGitHubFile (fetchWithExponentialBackoff manifestF randM 2 500) manifestBody
          let commitsData :=
            fetchGitHubCommits (fetchWithExponentialBackoff commitsF randC 2 500) commitsBody
          let repoData : RepoData :=
            ⟨readmeContent,
              -- packageJsonContent ? [...] : [] is a truthiness test, so an
              -- empty decoded string also yields the empty files list.
              match packageJsonContent with
              | some c => if c = "" then [] else [⟨"package.json", c, "package.json"⟩]
              | none => [],
              commitsData⟩
          let _analysisPrompt := createDetailedAnalysisPrompt u repoData
          let openaiTrace := fetchWithExponentialBackoff inferF randI 3 1000
          match openaiTrace.result with
          | .thrown => .serverError
          | .response s =>
            if ¬ (200 ≤ s ∧ s < 300) then .serverError
            else
              match completion with
              | none => .serverError
              | some parsed =>
                match interpret parsed with
                | .ok r => .success r
                | .okArrayBody => .successArrayBody
                | .typeError => .serverError

/-! Equation lemmas for one step of the retry loop. -/

theorem fwebGo_zero_resp (f : Nat → AttemptOutcome) (rand : Nat → ℚ) (init : ℚ)
    (attempt s : Nat) (hf : f attempt = .resp s) :
    fwebGo f rand init attempt 0 = ⟨.response s, 1, []⟩ := by
  simp only [fwebGo, hf]

theorem fwebGo_zero_exn (f : Nat → AttemptOutcome) (rand : Nat → ℚ) (init : ℚ)
    (attempt : Nat) (hf : f attempt = .exn) :
    fwebGo f rand init attempt 0 = ⟨.thrown, 1, []⟩ := by
  simp only [fwebGo, hf]

theorem fwebGo_succ_resp_immediate (f : Nat → AttemptOutcome) (rand : Nat → ℚ) (init : ℚ)
    (attempt r s : Nat) (hf : f attempt = .resp s)
    (hs : (200 ≤ s ∧ s < 300) ∨ (400 ≤ s ∧ s < 500 ∧ s ≠ 429)) :
    fwebGo f rand init attempt (r + 1) = ⟨.response s, 1, []⟩ := by
  simp only [fwebGo, hf, if_pos hs]

theorem fwebGo_succ_resp_retry (f : Nat → AttemptOutcome) (rand : Nat → ℚ) (init : ℚ)
    (attempt r s : Nat) (hf : f attempt = .resp s)
    (h1 : ¬ ((200 ≤ s ∧ s < 300) ∨ (400 ≤ s ∧ s < 500 ∧ s ≠ 429)))
    (h2 : s = 429 ∨ 500 ≤ s) :
    fwebGo f rand init attempt (r + 1) =
      retryStep (delayFor init rand attempt) (fwebGo f rand init (attempt + 1) r) := by
  simp only [fwebGo, hf, if_neg h1, if_pos h2]

theorem fwebGo_succ_resp_other (f : Nat → AttemptOutcome) (rand : Nat → ℚ) (init : ℚ)
    (attempt r s : Nat) (hf : f attempt = .resp s)
    (h1 : ¬ ((200 ≤ s ∧ s < 300) ∨ (400 ≤ s ∧ s < 500 ∧ s ≠ 429)))
    (h2 : ¬ (s = 429 ∨ 500 ≤ s)) :
    fwebGo f rand init attempt (r + 1) = ⟨.response s, 1, []⟩ := by
  simp only [fwebGo, hf, if_neg h1, if_neg h2]

theorem fwebGo_succ_exn (f : Nat → AttemptOutcome) (rand : Nat → ℚ) (init : ℚ)
    (attempt r : Nat) (hf : f attempt = .exn) :
    fwebGo f rand init attempt (r + 1) =
      retryStep (delayFor init rand attempt) (fwebGo f rand init (attempt + 1) r) := by
  simp only [fwebGo, hf]

/-- A response whose status returns immediately (2xx, or 4xx other than
429) ends the run at once, whatever the remaining retry budget. -/
theorem fwebGo_resp_immediate (f : Nat → AttemptOutcome) (rand : Nat → ℚ) (init : ℚ)
    (attempt remaining s : Nat) (hf : f attempt = .resp s)
    (hs : (200 ≤ s ∧ s < 300) ∨ (400 ≤ s ∧ s < 500 ∧ s ≠ 429)) :
    fwebGo f rand init attempt remaining = ⟨.response s, 1, []⟩ := by
  cases remaining with
  | zero => exact fwebGo_zero_resp f rand init attempt s hf
  | succ r => exact fwebGo_succ_resp_immediate f rand init attempt r s hf hs

/-- Every run performs at least one attempt. -/
theorem fwebGo_attempts_pos (f : Nat → AttemptOutcome) (rand : Nat → ℚ) (init : ℚ)
    (attempt remaining : Nat) :
    1 ≤ (fwebGo f rand init attempt remaining).attempts := by
  cases remaining with
  | zero =>
    cases hf : f attempt with
    | resp s => rw [fwebGo_zero_resp f rand init attempt s hf]
    | exn => rw [fwebGo_zero_exn f rand init attempt hf]
  | succ r =>
    cases hf : f attempt with
    | resp s =>
      by_cases hs : (200 ≤ s ∧ s < 300) ∨ (400 ≤ s ∧ s < 500 ∧ s ≠ 429)
      · rw [fwebGo_succ_resp_immediate f rand init attempt r s hf hs]
      · by_cases h2 : s = 429 ∨ 500 ≤ s
        · rw [fwebGo_succ_resp_retry f rand init attempt r s hf hs h2]
          simp [retryStep]
        · rw [fwebGo_succ_resp_other f rand init attempt r s hf hs h2]
    | exn =>
      rw [fwebGo_succ_exn f rand init attempt r hf]
      simp [retryStep]

/-- A run that may still retry remaining times performs at most
remaining + 1 attempts. -/
theorem fwebGo_attempts_le (f : Nat → AttemptOutcome) (rand : Nat → ℚ) (init : ℚ) :
    ∀ remaining attempt, (fwebGo f rand init attempt remaining).attempts ≤ remaining + 1 := by
  intro remaining
  induction remaining with
  | zero =>
    intro attempt
    cases hf : f attempt with
    | resp s => rw [fwebGo_zero_resp f rand init attempt s hf]
    | exn => rw [fwebGo_zero_exn f rand init attempt hf]
  | succ r ih =>
    intro attempt
    cases hf : f attempt with
    | resp s =>
      by_cases hs : (200 ≤ s ∧ s < 300) ∨ (400 ≤ s ∧ s < 500 ∧ s ≠ 429)
      · rw [fwebGo_succ_resp_immediate f rand init attempt r s hf hs]
        dsimp only
        omega
      · by_cases h2 : s = 429 ∨ 500 ≤ s
        · rw [fwebGo_succ_resp_retry f rand init attempt r s hf hs h2]
          simpa [retryStep] using Nat.succ_le_succ (ih (attempt + 1))
        · rw [fwebGo_succ_resp_other f rand init attempt r s hf hs h2]
          dsimp only
          omega
    | exn =>
      rw [fwebGo_succ_exn f rand init attempt r hf]
      simpa [retryStep] using Nat.succ_le_succ (ih (attempt + 1))

/-- The i-th recorded delay of a run whose first attempt has index attempt
is the backoff delay computed for attempt index attempt + i. -/
theorem fwebGo_delays_get? (f : Nat → AttemptOutcome) (rand : Nat → ℚ) (init : ℚ) :
    ∀ remaining attempt i, i < (fwebGo f rand init attempt remaining).delays.length →
      (fwebGo f rand init attempt remaining).delays.get? i =
        some (delayFor init rand (attempt + i)) := by
  intro remaining
  induction remaining with
  | zero =>
    intro attempt i h
    exfalso
    cases hf : f attempt with
    | resp s => rw [fwebGo_zero_resp f rand init attempt s hf] at h; simp at h
    | exn => rw [fwebGo_zero_exn f rand init attempt hf] at h; simp at h
  | succ r ih =>
    intro attempt i h
    cases hf : f attempt with
    | resp s =>
      by_cases hs : (200 ≤ s ∧ s < 300) ∨ (400 ≤ s ∧ s < 500 ∧ s ≠ 429)
      · rw [fwebGo_succ_resp_immediate f rand init attempt r s hf hs] at h
        simp at h
      · by_cases h2 : s = 429 ∨ 500 ≤ s
        · rw [fwebGo_succ_resp_retry f rand init attempt r s hf hs h2] at h ⊢
          cases i with
          | zero => simp [retryStep]
          | succ j =>
            simp only [retryStep, List.length_cons] at h
            have hj : j < (fwebGo f rand init (attempt + 1) r).delays.length :=
              Nat.lt_of_succ_lt_succ h
            have hrec := ih (attempt + 1) j hj
            simp only [retryStep, List.get?_cons_succ, hrec]
            congr 2
            omega
        · rw [fwebGo_succ_resp_other f rand init attempt r s hf hs h2] at h
          simp at h
    | exn =>
      rw [fwebGo_succ_exn f rand init attempt r hf] at h ⊢
      cases i with
      | zero => simp [retryStep]
      | succ j =>
        simp only [retryStep, List.length_cons] at h
        have hj : j < (fwebGo f rand init (attempt + 1) r).delays.length :=
          Nat.lt_of_succ_lt_succ h
        have hrec := ih (attempt + 1) j hj
        simp only [retryStep, List.get?_cons_succ, hrec]
        congr 2
        omega

/-- With a positive base delay and a jitter sample in [0, 1), the total
delay lies in [base, base + base/10). -/
theorem delayFor_bounds (init : ℚ) (rand : Nat → ℚ) (a : Nat)
    (hinit : 0 < init) (h0 : 0 ≤ rand a) (h1 : rand a < 1) :
    init * 2 ^ a ≤ delayFor init rand a ∧
      delayFor init rand a < init * 2 ^ a + (1 / 10) * (init * 2 ^ a) := by
  have hbase : (0 : ℚ) < init * 2 ^ a := by positivity
  constructor
  · unfold delayFor
    nlinarith
  · unfold delayFor
    nlinarith

/-- Consecutive backoff delays grow strictly: the jittered delay for
attempt a is below 1.1 times the base, and the next base doubles. -/
theorem delayFor_lt_succ (init : ℚ) (rand : Nat → ℚ) (a : Nat)
    (hinit : 0 < init) (h0 : 0 ≤ rand a) (h1 : rand a < 1) (h2 : 0 ≤ rand (a + 1)) :
    delayFor init rand a < delayFor init rand (a + 1) := by
  have hbase : (0 : ℚ) < init * 2 ^ a := by positivity
  have hdouble : init * 2 ^ (a + 1) = 2 * (init * 2 ^ a) := by ring
  unfold delayFor
  rw [hdouble]
  nlinarith

/-- The clamped scores always land in [0, 100]. -/
theorem clamp0100_bounds (v : Int) : 0 ≤ clamp0100 v ∧ clamp0100 v ≤ 100 := by
  unfold clamp0100
  constructor
  · exact le_max_left 0 _
  · exact max_le (by norm_num) (min_le_left 100 v)

/-! Characterization lemmas for the locator parser. -/

theorem dropPrefixChars_append (ps cs : List Char) :
    dropPrefixChars ps (ps ++ cs) = some cs := by
  induction ps with
  | nil => rfl
  | cons p ps ih => simp [dropPrefixChars, ih]

theorem dropPrefixChars_eq_some :
    ∀ (ps cs rest : List Char), dropPrefixChars ps cs = some rest → cs = ps ++ rest := by
  intro ps
  induction ps with
  | nil =>
    intro cs rest h
    simp only [dropPrefixChars] at h
    simp [← Option.some.inj h]
  | cons p ps ih =>
    intro cs rest h
    cases cs with
    | nil => exact absurd h (by simp [dropPrefixChars])
    | cons c cs' =>
      simp only [dropPrefixChars] at h
      by_cases hc : c = p
      · rw [if_pos hc] at h
        rw [hc, List.cons_append, ← ih cs' rest h]
      · rw [if_neg hc] at h
        cases h

theorem splitOnSlash_ne_nil (l : List Char) : splitOnSlash l ≠ [] := by
  cases l with
  | nil => simp [splitOnSlash]
  | cons c cs =>
    unfold splitOnSlash
    by_cases h : c = '/'
    · simp [h]
    · rw [if_neg h]
      cases h' : splitOnSlash cs <;> simp

/-- No group produced by splitOnSlash contains a slash. -/
theorem splitOnSlash_no_slash :
    ∀ (l g : List Char), g ∈ splitOnSlash l → '/' ∉ g := by
  intro l
  induction l with
  | nil =>
    intro g hg
    simp only [splitOnSlash, List.mem_singleton] at hg
    simp [hg]
  | cons c cs ih =>
    intro g hg
    unfold splitOnSlash at hg
    by_cases h : c = '/'
    · rw [if_pos h] at hg
      rcases List.mem_cons.mp hg with h1 | h1
      · simp [h1]
      · exact ih g h1
    · rw [if_neg h] at hg
      cases h' : splitOnSlash cs with
      | nil =>
        rw [h'] at hg
        simp only [List.mem_singleton] at hg
        subst hg
        intro hm
        rcases List.mem_cons.mp hm with h2 | h2
        · exact h h2.symm
        · simp at h2
      | cons g0 gs =>
        rw [h'] at hg
        rcases List.mem_cons.mp hg with h1 | h1
        · subst h1
          intro hm
          rcases List.mem_cons.mp hm with h2 | h2
          · exact h h2.symm
          · exact ih g0 (h' ▸ List.mem_cons_self g0 gs) h2
        · exact ih g (by rw [h']; exact List.mem_cons_of_mem _ h1)

/-- Rejoining the groups of splitOnSlash recovers the input. -/
theorem joinSlash_splitOnSlash : ∀ l : List Char, joinSlash (splitOnSlash l) = l := by
  intro l
  induction l with
  | nil => rfl
  | cons c cs ih =>
    unfold splitOnSlash
    by_cases h : c = '/'
    · rw [if_pos h]
      cases h' : splitOnSlash cs with
      | nil => exact absurd h' (splitOnSlash_ne_nil cs)
      | cons g gs =>
        rw [h'] at ih
        simp only [joinSlash, List.nil_append]
        rw [ih, h]
    · rw [if_neg h]
      cases h' : splitOnSlash cs with
      | nil => exact absurd h' (splitOnSlash_ne_nil cs)
      | cons g gs =>
        rw [h'] at ih
        cases gs with
        | nil =>
          simp only [joinSlash] at ih ⊢
          rw [ih]
        | cons g2 gs' =>
          simp only [joinSlash, List.cons_append] at ih ⊢
          rw [ih]

/-- Splitting a slash-free list yields the single group. -/
theorem splitOnSlash_of_no_slash :
    ∀ a : List Char, '/' ∉ a → splitOnSlash a = [a] := by
  intro a
  induction a with
  | nil => intro _; rfl
  | cons c a' ih =>
    intro ha
    have hc : ¬ c = '/' := fun hc => ha (by simp [hc])
    have ha' : '/' ∉ a' := fun hm => ha (List.mem_cons_of_mem _ hm)
    unfold splitOnSlash
    rw [if_neg hc, ih ha']

/-- Splitting a list of the shape a ++ slash ++ rest with a slash-free
peels off a as the first group. -/
theorem splitOnSlash_append_slash :
    ∀ (a rest : List Char), '/' ∉ a →
      splitOnSlash (a ++ '/' :: rest) = a :: splitOnSlash rest := by
  intro a
  induction a with
  | nil =>
    intro rest _
    simp [splitOnSlash]
  | cons c a' ih =>
    intro rest ha
    have hc : ¬ c = '/' := fun hc => ha (by simp [hc])
    have ha' : '/' ∉ a' := fun hm => ha (List.mem_cons_of_mem _ hm)
    simp only [List.cons_append, splitOnSlash, if_neg hc]
    have hform : a'.append ('/' :: rest) = a' ++ '/' :: rest := rfl
    rw [hform, ih rest ha']

/-- The .git-stripping step removes exactly a trailing ".git". -/
theorem stripGitSuffix_append_git (name : List Char) :
    stripGitSuffix (name ++ ['.', 'g', 'i', 't']) = name := by
  unfold stripGitSuffix
  have hlen : (name ++ ['.', 'g', 'i', 't']).length - 4 = name.length := by
    simp
  rw [hlen, List.drop_left, if_pos rfl, List.take_left]

/-! Evaluation lemmas for locatorOfGroups on each group shape. -/

theorem locatorOfGroups_pair (a b : List Char) :
    locatorOfGroups [a, b] =
      if a ≠ [] ∧ b ≠ [] then some ⟨⟨a⟩, ⟨stripGitSuffix b⟩⟩ else none := rfl

theorem locatorOfGroups_pair_slash (a b : List Char) :
    locatorOfGroups [a, b, []] =
      if a ≠ [] ∧ b ≠ [] then some ⟨⟨a⟩, ⟨stripGitSuffix b⟩⟩ else none := rfl

/-- Once the credentials are set, the URL is present, nonempty and parses,
the handler output is decided by the OpenAI run trace and the extracted
completion alone; the three metadata fetches can never fail the request. -/
theorem handler_run (u : String) (info : GitHubRepo)
    (readmeF manifestF commitsF inferF : Nat → AttemptOutcome)
    (randR randM randC randI : Nat → ℚ)
    (readmeBody manifestBody : Option String) (commitsBody : List CommitInfo)
    (completion : Option (Option CompletionJson))
    (hne : u ≠ "") (hp : parseGitHubUrl u = some info) :
    handler true true (some u) readmeF manifestF commitsF inferF
        randR randM randC randI readmeBody manifestBody commitsBody completion =
      match (fetchWithExponentialBackoff inferF randI 3 1000).result with
      | .thrown => .serverError
      | .response s =>
        if ¬ (200 ≤ s ∧ s < 300) then .serverError
        else
          match completion with
          | none => .serverError
          | some parsed =>
            match interpret parsed with
            | .ok r => .success r
            | .okArrayBody => .successArrayBody
            | .typeError => .serverError := by
  unfold handler
  simp only [not_true, if_false, if_neg hne, hp]

/-! Claim theorems. -/

/-- C2, counterexample: a completion that parses successfully as the empty
JSON object (all fields absent) does not receive the fallback result — its
confidence is defaulted to 50, not the fallback value 30, its analysis and
indicator lists stay absent — and the stage is not exception-free: a
completion parsing to the null literal throws a TypeError out of the
sanitize block instead of returning any result. -/
theorem interpret_empty_object_not_fallback :
    interpret (some (.jobject ⟨none, none, none, none⟩)) = .ok ⟨50, none, 50, none⟩ ∧
    interpret (some (.jobject ⟨none, none, none, none⟩)) ≠ interpret none ∧
    interpret (some .jnull) = .typeError := by
  refine ⟨rfl, ?_, rfl⟩
  decide

/-- C2, amended: the fallback result (vciScore 50, confidence 30, the
generic non-empty analysis sentence, three empty indicator lists) is
substituted exactly when the completion fails to parse. A completion that
parses to an object with its numeric fields absent does not receive the
fallback: each score defaults to 50 individually, and analysis and
indicators pass through unchanged. The stage can also throw: a completion
parsing to null or a non-object primitive raises a TypeError at the
sanitize step, surfacing as the 500 error response. -/
theorem interpret_fallback_on_parse_failure (c : ParsedCompletion)
    (hv : c.vciScore = none) (hc : c.confidence = none) :
    interpret none =
      .ok ⟨50, some fallbackAnalysisText, 30, some ⟨some [], some [], some []⟩⟩ ∧
    fallbackAnalysisText ≠ "" ∧
    interpret (some (.jobject c)) = .ok ⟨50, c.analysis, 50, c.indicators⟩ ∧
    interpret (some .jnull) = .typeError ∧
    interpret (some .jprim) = .typeError := by
  refine ⟨rfl, by decide, ?_, rfl, rfl⟩
  simp [interpret, sanitizeScores, hv, hc, orFalsy50, clamp0100]

/-- C2 witness: a completion parsing to an object with both numeric fields
absent instantiates the amended claim. -/
theorem interpret_fallback_on_parse_failure_witness :
    interpret none =
      .ok ⟨50, some fallbackAnalysisText, 30, some ⟨some [], some [], some []⟩⟩ ∧
    fallbackAnalysisText ≠ "" ∧
    interpret (some (.jobject ⟨none, some "text", none, none⟩)) =
      .ok ⟨50, some "text", 50, none⟩ ∧
    interpret (some .jnull) = .typeError ∧
    interpret (some .jprim) = .typeError :=
  interpret_fallback_on_parse_failure ⟨none, some "text", none, none⟩ rfl rfl

/-- C3: the sanitization uses a falsy default (x || 50) before clamping,
so an object completion whose vciScore or confidence is 0, and likewise an
absent field, gets that field replaced by 50 — a parsed 0 is never
returned and an absent confidence in a parsed object becomes 50 rather
than the fallback value 30. -/
theorem interpret_falsy_zero_defaults (c : ParsedCompletion) :
    interpret (some (.jobject c)) = .ok (sanitizeScores c) ∧
    ((c.vciScore = some 0 ∨ c.vciScore = none) → (sanitizeScores c).vciScore = 50) ∧
    ((c.confidence = some 0 ∨ c.confidence = none) → (sanitizeScores c).confidence = 50) := by
  refine ⟨rfl, ?_, ?_⟩
  · intro h
    rcases h with h | h <;> simp [sanitizeScores, h, orFalsy50, clamp0100]
  · intro h
    rcases h with h | h <;> simp [sanitizeScores, h, orFalsy50, clamp0100]

/-- C3 witness: a completion parsing to an object with vciScore 0 and
absent confidence gets both scores replaced by 50. -/
theorem interpret_falsy_zero_defaults_witness :
    interpret (some (.jobject ⟨some 0, none, none, none⟩)) =
      .ok (sanitizeScores ⟨some 0, none, none, none⟩) ∧
    (sanitizeScores ⟨some 0, none, none, none⟩).vciScore = 50 ∧
    (sanitizeScores ⟨some 0, none, none, none⟩).confidence = 50 :=
  ⟨(interpret_falsy_zero_defaults ⟨some 0, none, none, none⟩).1,
    (interpret_falsy_zero_defaults ⟨some 0, none, none, none⟩).2.1 (Or.inl rfl),
    (interpret_falsy_zero_defaults ⟨some 0, none, none, none⟩).2.2 (Or.inr rfl)⟩

/-- C4: for every request and retry policy the fetcher performs at most
maxRetries + 1 attempts; and when every attempt returns HTTP 503 with
maxRetries = 3 it performs exactly 4 attempts, returns the last failing
response, and the three backoff waits inserted between attempts are
strictly increasing. -/
theorem retry_termination (f : Nat → AttemptOutcome) (rand : Nat → ℚ) (init : ℚ)
    (m : Nat) (hinit : 0 < init) (hrand : ∀ n, 0 ≤ rand n ∧ rand n < 1) :
    (fetchWithExponentialBackoff f rand m init).attempts ≤ m + 1 ∧
    ((∀ n, f n = .resp 503) →
      (fetchWithExponentialBackoff f rand 3 init).attempts = 4 ∧
      (fetchWithExponentialBackoff f rand 3 init).result = .response 503 ∧
      (fetchWithExponentialBackoff f rand 3 init).delays.Chain' (· < ·)) := by
  constructor
  · exact fwebGo_attempts_le f rand init m 0
  · intro h503
    have e3 := fwebGo_zero_resp f rand init 3 503 (h503 3)
    have e2 := fwebGo_succ_resp_retry f rand init 2 0 503 (h503 2) (by norm_num) (by norm_num)
    have e1 := fwebGo_succ_resp_retry f rand init 1 1 503 (h503 1) (by norm_num) (by norm_num)
    have e0 := fwebGo_succ_resp_retry f rand init 0 2 503 (h503 0) (by norm_num) (by norm_num)
    have etrace : fetchWithExponentialBackoff f rand 3 init =
        retryStep (delayFor init rand 0) (retryStep (delayFor init rand 1)
          (retryStep (delayFor init rand 2) ⟨.response 503, 1, []⟩)) := by
      unfold fetchWithExponentialBackoff
      rw [e0, e1, e2, e3]
    rw [etrace]
    refine ⟨rfl, rfl, ?_⟩
    simp only [retryStep, List.chain'_cons, List.chain'_singleton, and_true]
    exact ⟨delayFor_lt_succ init rand 0 hinit (hrand 0).1 (hrand 0).2 (hrand 1).1,
      delayFor_lt_succ init rand 1 hinit (hrand 1).1 (hrand 1).2 (hrand 2).1⟩

/-- C4 witness: a fetch returning 503 on every attempt under the default
policy (maxRetries 3, initial delay 1000 ms, zero jitter samples). -/
theorem retry_termination_witness :
    (fetchWithExponentialBackoff (fun _ => AttemptOutcome.resp 503) (fun _ => 0) 3 1000).attempts = 4 ∧
    (fetchWithExponentialBackoff (fun _ => AttemptOutcome.resp 503) (fun _ => 0) 3 1000).result = .response 503 ∧
    (fetchWithExponentialBackoff (fun _ => AttemptOutcome.resp 503) (fun _ => 0) 3 1000).delays.Chain' (· < ·) :=
  (retry_termination (fun _ => AttemptOutcome.resp 503) (fun _ => 0) 1000 3
    (by norm_num) (fun _ => ⟨le_refl 0, by norm_num⟩)).2 (fun _ => rfl)

/-- C5: classification of the first attempt. A 404 first response ends the
run at once with one attempt and no backoff delay, and the fetchGitHubFile
caller maps that 404 response to the absent value null; a 2xx first
response likewise returns at once; any other 4xx except 429 returns at
once as a terminal failure; a 429 or 5xx response, or a thrown transport
exception, is retried (a second attempt happens whenever the budget allows
one). -/
theorem fetch_classification (f : Nat → AttemptOutcome) (rand : Nat → ℚ) (init : ℚ)
    (m s : Nat) (body : Option String) :
    (f 0 = .resp 404 →
      fetchWithExponentialBackoff f rand m init = ⟨.response 404, 1, []⟩ ∧
      fetchGitHubFile (fetchWithExponentialBackoff f rand m init) body = none) ∧
    (f 0 = .resp s → 200 ≤ s → s < 300 →
      fetchWithExponentialBackoff f rand m init = ⟨.response s, 1, []⟩) ∧
    (f 0 = .resp s → 400 ≤ s → s < 500 → s ≠ 429 →
      fetchWithExponentialBackoff f rand m init = ⟨.response s, 1, []⟩) ∧
    (f 0 = .resp s → (s = 429 ∨ 500 ≤ s) → 1 ≤ m →
      2 ≤ (fetchWithExponentialBackoff f rand m init).attempts) ∧
    (f 0 = .exn → 1 ≤ m →
      2 ≤ (fetchWithExponentialBackoff f rand m init).attempts) := by
  refine ⟨?_, ?_, ?_, ?_, ?_⟩
  · intro h
    have e := fwebGo_resp_immediate f rand init 0 m 404 h (by norm_num)
    refine ⟨e, ?_⟩
    unfold fetchWithExponentialBackoff at e ⊢
    rw [e]
    rfl
  · intro h h1 h2
    exact fwebGo_resp_immediate f rand init 0 m s h (Or.inl ⟨h1, h2⟩)
  · intro h h1 h2 h3
    exact fwebGo_resp_immediate f rand init 0 m s h (Or.inr ⟨h1, h2, h3⟩)
  · intro h hret hm
    obtain ⟨r, rfl⟩ : ∃ r, m = r + 1 := ⟨m - 1, by omega⟩
    unfold fetchWithExponentialBackoff
    rw [fwebGo_succ_resp_retry f rand init 0 r s h (by omega) hret]
    have := fwebGo_attempts_pos f rand init 1 r
    simp only [retryStep]
    exact Nat.succ_le_succ this
  · intro h hm
    obtain ⟨r, rfl⟩ : ∃ r, m = r + 1 := ⟨m - 1, by omega⟩
    unfold fetchWithExponentialBackoff
    rw [fwebGo_succ_exn f rand init 0 r h]
    have := fwebGo_attempts_pos f rand init 1 r
    simp only [retryStep]
    exact Nat.succ_le_succ this

/-- C5 witness: a single 404 yields one attempt, no delay, and the null
file content; a first-attempt exception under a budget of 2 retries leads
to a second attempt. -/
theorem fetch_classification_witness :
    (fetchWithExponentialBackoff (fun _ => AttemptOutcome.resp 404) (fun _ => 0) 2 500 =
      ⟨.response 404, 1, []⟩ ∧
     fetchGitHubFile (fetchWithExponentialBackoff (fun _ => AttemptOutcome.resp 404) (fun _ => 0) 2 500) none = none) ∧
    2 ≤ (fetchWithExponentialBackoff (fun _ => AttemptOutcome.exn) (fun _ => 0) 2 500).attempts :=
  ⟨(fetch_classification (fun _ => AttemptOutcome.resp 404) (fun _ => 0) 500 2 404 none).1 rfl,
    (fetch_classification (fun _ => AttemptOutcome.exn) (fun _ => 0) 500 2 404 none).2.2.2.2 rfl
      (by norm_num)⟩

/-- C10: whenever the run records an i-th backoff delay (inserted after
the i-th failed attempt, before retry number i + 1), that delay equals
initialDelay * 2 ^ i plus the jitter sample times 0.1 times that base
delay; with the sample in [0, 1) the total lies in
[initialDelay * 2 ^ i, 1.1 * initialDelay * 2 ^ i). -/
theorem backoff_delay_schedule (f : Nat → AttemptOutcome) (rand : Nat → ℚ) (init : ℚ)
    (m : Nat) (hinit : 0 < init) (hrand : ∀ n, 0 ≤ rand n ∧ rand n < 1)
    (i : Nat) (h : i < (fetchWithExponentialBackoff f rand m init).delays.length) :
    (fetchWithExponentialBackoff f rand m init).delays.get ⟨i, h⟩ =
      init * 2 ^ i + rand i * (1 / 10) * (init * 2 ^ i) ∧
    init * 2 ^ i ≤ (fetchWithExponentialBackoff f rand m init).delays.get ⟨i, h⟩ ∧
    (fetchWithExponentialBackoff f rand m init).delays.get ⟨i, h⟩ <
      init * 2 ^ i + (1 / 10) * (init * 2 ^ i) := by
  have hq := fwebGo_delays_get? f rand init m 0 i h
  have hg : (fetchWithExponentialBackoff f rand m init).delays.get? i =
      some ((fetchWithExponentialBackoff f rand m init).delays.get ⟨i, h⟩) :=
    List.get?_eq_get h
  have he : (fetchWithExponentialBackoff f rand m init).delays.get ⟨i, h⟩ =
      delayFor init rand i := by
    have := hg.symm.trans hq
    simpa using Option.some.inj this
  have hb := delayFor_bounds init rand i hinit (hrand i).1 (hrand i).2
  refine ⟨?_, ?_, ?_⟩
  · rw [he]; rfl
  · rw [he]; exact hb.1
  · rw [he]; exact hb.2

/-- C10 witness: with zero jitter samples and the default inference policy,
the first recorded delay of an always-503 run is exactly the base delay of
1000 ms. -/
theorem backoff_delay_schedule_witness :
    (fetchWithExponentialBackoff (fun _ => AttemptOutcome.resp 503) (fun _ => (0:ℚ)) 3 1000).delays.get
        ⟨0, by decide⟩ =
      1000 * 2 ^ 0 + 0 * (1 / 10) * (1000 * 2 ^ 0) :=
  (backoff_delay_schedule (fun _ => AttemptOutcome.resp 503) (fun _ => (0:ℚ)) 1000 3
    (by norm_num) (fun _ => ⟨le_refl 0, by norm_num⟩) 0 (by decide)).1

/-- C6, counterexample: the locator parser does not reject a query string.
The second capture group of the source regex only excludes slashes, so a
query suffix is absorbed into the repository name and the URL is accepted
rather than rejected as the claim states. -/
theorem parse_accepts_query_string :
    parseGitHubUrl "https://github.com/a/b?x=1" = some ⟨"a", "b?x=1"⟩ := by
  rfl

/-- C6, amended: the parser accepts exactly the strings
https://github.com/OWNER/NAME with an optional trailing slash, where OWNER
and NAME are nonempty and slash-free but otherwise arbitrary character
sequences (so a query string is absorbed into the name, not rejected),
returning the owner and the name with one trailing .git stripped; every
other string — extra path segments, missing segments, other schemes or
hosts, non-URLs — is rejected; and a rejected locator makes the handler
answer 400 before any fetch, whatever the network would have done (the
output does not depend on any fetch argument). -/
theorem locator_parser_behavior (url : String) (r : GitHubRepo) :
    (dropPrefixChars "https://github.com/".data url.data = none →
      parseGitHubUrl url = none) ∧
    (parseGitHubUrl url = some r ↔
      ∃ owner name : List Char,
        owner ≠ [] ∧ name ≠ [] ∧ '/' ∉ owner ∧ '/' ∉ name ∧
        (url.data = "https://github.com/".data ++ (owner ++ '/' :: name) ∨
          url.data = "https://github.com/".data ++ (owner ++ '/' :: (name ++ ['/']))) ∧
        r = ⟨⟨owner⟩, ⟨stripGitSuffix name⟩⟩) ∧
    (∀ name : List Char, stripGitSuffix (name ++ ['.', 'g', 'i', 't']) = name) ∧
    parseGitHubUrl "not-a-url" = none ∧
    (∀ (readmeF manifestF commitsF inferF : Nat → AttemptOutcome)
        (randR randM randC randI : Nat → ℚ)
        (readmeBody manifestBody : Option String) (commitsBody : List CommitInfo)
        (completion : Option (Option CompletionJson)),
      handler true true (some "not-a-url") readmeF manifestF commitsF inferF
          randR randM randC randI readmeBody manifestBody commitsBody completion =
        .badRequest "Invalid GitHub URL format") := by
  refine ⟨?_, ⟨?_, ?_⟩, stripGitSuffix_append_git, rfl, ?_⟩
  · intro h
    unfold parseGitHubUrl
    rw [h]
  · -- Soundness: an accepted URL has the claimed shape.
    intro h
    unfold parseGitHubUrl at h
    cases hdrop : dropPrefixChars "https://github.com/".data url.data with
    | none =>
      rw [hdrop] at h
      exact Option.noConfusion h
    | some rest =>
      rw [hdrop] at h
      have h1 : locatorOfGroups (splitOnSlash rest) = some r := h
      have hurl : url.data = "https://github.com/".data ++ rest :=
        dropPrefixChars_eq_some _ _ _ hdrop
      have hjoin := joinSlash_splitOnSlash rest
      rcases hsplit : splitOnSlash rest with _ | ⟨a, _ | ⟨b, _ | ⟨c, ds⟩⟩⟩
      · rw [hsplit] at h1
        exact Option.noConfusion h1
      · rw [hsplit] at h1
        exact Option.noConfusion h1
      · -- splitOnSlash rest = [a, b]: no trailing slash.
        rw [hsplit] at h1 hjoin
        rw [locatorOfGroups_pair] at h1
        by_cases hg : a ≠ [] ∧ b ≠ []
        · rw [if_pos hg] at h1
          refine ⟨a, b, hg.1, hg.2,
            splitOnSlash_no_slash rest a (by rw [hsplit]; exact List.mem_cons_self a [b]),
            splitOnSlash_no_slash rest b
              (by rw [hsplit]; exact List.mem_cons_of_mem a (List.mem_singleton.mpr rfl)),
            Or.inl ?_, ?_⟩
          · rw [hurl, ← hjoin]
            rfl
          · exact (Option.some.inj h1).symm
        · rw [if_neg hg] at h1
          exact Option.noConfusion h1
      · -- Three or more groups: only [a, b, []] is accepted.
        cases c with
        | nil =>
          cases ds with
          | nil =>
            rw [hsplit] at h1 hjoin
            rw [locatorOfGroups_pair_slash] at h1
            by_cases hg : a ≠ [] ∧ b ≠ []
            · rw [if_pos hg] at h1
              refine ⟨a, b, hg.1, hg.2,
                splitOnSlash_no_slash rest a
                  (by rw [hsplit]; exact List.mem_cons_self a [b, []]),
                splitOnSlash_no_slash rest b
                  (by rw [hsplit]; exact List.mem_cons_of_mem a (List.mem_cons_self b [[]])),
                Or.inr ?_, ?_⟩
              · rw [hurl, ← hjoin]
                rfl
              · exact (Option.some.inj h1).symm
            · rw [if_neg hg] at h1
              exact Option.noConfusion h1
          | cons d ds' =>
            rw [hsplit] at h1
            exact Option.noConfusion h1
        | cons c0 c' =>
          rw [hsplit] at h1
          cases ds with
          | nil => exact Option.noConfusion h1
          | cons d ds' => exact Option.noConfusion h1
  · -- Completeness: every URL of the claimed shape is accepted.
    rintro ⟨owner, name, ho, hn, hso, hsn, hshape | hshape, hr⟩
    · unfold parseGitHubUrl
      rw [hshape]
      simp only [dropPrefixChars_append]
      rw [splitOnSlash_append_slash owner name hso, splitOnSlash_of_no_slash name hsn,
        locatorOfGroups_pair, if_pos ⟨ho, hn⟩, hr]
    · unfold parseGitHubUrl
      rw [hshape]
      simp only [dropPrefixChars_append]
      have harr : name ++ ['/'] = name ++ '/' :: ([] : List Char) := rfl
      rw [harr, splitOnSlash_append_slash owner (name ++ '/' :: []) hso,
        splitOnSlash_append_slash name [] hsn]
      show locatorOfGroups [owner, name, []] = some r
      rw [locatorOfGroups_pair_slash, if_pos ⟨ho, hn⟩, hr]
  · intro readmeF manifestF commitsF inferF randR randM randC randI
      readmeBody manifestBody commitsBody completion
    rfl

/-- C6 witness: a plain word is rejected, and a URL carrying a trailing
.git on the repository name is accepted with the suffix stripped, through
the characterization. -/
theorem locator_parser_behavior_witness :
    parseGitHubUrl "not-a-url" = none ∧
    parseGitHubUrl "https://github.com/acme/widgets.git" = some ⟨"acme", "widgets"⟩ :=
  ⟨(locator_parser_behavior "not-a-url" ⟨"", ""⟩).1 (by decide),
    (locator_parser_behavior "https://github.com/acme/widgets.git"
        ⟨"acme", "widgets"⟩).2.1.mpr
      ⟨"acme".data, "widgets.git".data, by decide, by decide, by decide, by decide,
        Or.inl (by decide), by decide⟩⟩

/-- C7: the metadata gatherer is total over every combination of fetch
outcomes — a thrown exception, a 404, or any other non-2xx terminal or
exhausted status leaves the affected field null (readme, manifest) or
empty (commits) instead of failing — and in particular, when both the
README fetch and the manifest fetch answer 404 on their first attempt
while the inference call succeeds, the whole pipeline still returns a
well-formed AnalysisResult with both scores inside [0, 100]. -/
theorem gatherer_partial_failure_tolerance
    (tR tM tC : RunTrace) (bR bM : Option String) (bC : List CommitInfo)
    (readmeF manifestF commitsF inferF : Nat → AttemptOutcome)
    (randR randM randC randI : Nat → ℚ)
    (completionParsed : Option ParsedCompletion) (sI : Nat)
    (hR404 : readmeF 0 = .resp 404) (hM404 : manifestF 0 = .resp 404)
    (hIok : inferF 0 = .resp sI) (hs : 200 ≤ sI ∧ sI < 300) :
    (tR.result = .thrown → fetchGitHubReadme tR bR = none) ∧
    (tR.result = .response 404 → fetchGitHubReadme tR bR = none) ∧
    (∀ s, tR.result = .response s → ¬ (200 ≤ s ∧ s < 300) → fetchGitHubReadme tR bR = none) ∧
    (tM.result = .thrown → fetchGitHubFile tM bM = none) ∧
    (tM.result = .response 404 → fetchGitHubFile tM bM = none) ∧
    (∀ s, tM.result = .response s → ¬ (200 ≤ s ∧ s < 300) → fetchGitHubFile tM bM = none) ∧
    (tC.result = .thrown → fetchGitHubCommits tC bC = []) ∧
    (∀ s, tC.result = .response s → ¬ (200 ≤ s ∧ s < 300) → fetchGitHubCommits tC bC = []) ∧
    handler true true (some "https://github.com/acme/widgets")
        readmeF manifestF commitsF inferF randR randM randC randI
        bR bM bC (some (objectCompletion completionParsed)) =
      .success (sanitizeScores (completionParsed.getD fallbackCompletion)) ∧
    0 ≤ (sanitizeScores (completionParsed.getD fallbackCompletion)).vciScore ∧
    (sanitizeScores (completionParsed.getD fallbackCompletion)).vciScore ≤ 100 ∧
    0 ≤ (sanitizeScores (completionParsed.getD fallbackCompletion)).confidence ∧
    (sanitizeScores (completionParsed.getD fallbackCompletion)).confidence ≤ 100 := by
  refine ⟨?_, ?_, ?_, ?_, ?_, ?_, ?_, ?_, ?_,
    (clamp0100_bounds _).1, (clamp0100_bounds _).2,
    (clamp0100_bounds _).1, (clamp0100_bounds _).2⟩
  · intro ht; unfold fetchGitHubReadme; rw [ht]
  · intro ht; unfold fetchGitHubReadme; rw [ht]; simp
  · intro s ht hbad
    unfold fetchGitHubReadme
    rw [ht]
    by_cases h404 : s = 404
    · simp [h404]
    · simp [h404, hbad]
  · intro ht; unfold fetchGitHubFile; rw [ht]
  · intro ht; unfold fetchGitHubFile; rw [ht]; simp
  · intro s ht hbad
    unfold fetchGitHubFile
    rw [ht]
    by_cases h404 : s = 404
    · simp [h404]
    · simp [h404, hbad]
  · intro ht; unfold fetchGitHubCommits; rw [ht]
  · intro s ht hbad
    unfold fetchGitHubCommits
    rw [ht]
    simp [hbad]
  · rw [handler_run "https://github.com/acme/widgets" ⟨"acme", "widgets"⟩
      readmeF manifestF commitsF inferF randR randM randC randI
      bR bM bC (some (objectCompletion completionParsed)) (by decide) (by rfl)]
    have htrace : fetchWithExponentialBackoff inferF randI 3 1000 =
        ⟨.response sI, 1, []⟩ :=
      fwebGo_resp_immediate inferF randI 1000 0 3 sI hIok (Or.inl hs)
    rw [htrace]
    dsimp only
    rw [if_neg (not_not_intro hs)]
    cases completionParsed with
    | none => rfl
    | some c => rfl

/-- C7 witness: both metadata resources missing (404), a successful
inference call, and a fully populated object completion. -/
theorem gatherer_partial_failure_tolerance_witness :
    handler true true (some "https://github.com/acme/widgets")
        (fun _ => AttemptOutcome.resp 404) (fun _ => AttemptOutcome.resp 404)
        (fun _ => AttemptOutcome.resp 200) (fun _ => AttemptOutcome.resp 200)
        (fun _ => 0) (fun _ => 0) (fun _ => 0) (fun _ => 0)
        none none []
        (some (some (.jobject ⟨some 72, some "ok", some 65,
          some ⟨some ["consistent formatting"], some [], some []⟩⟩))) =
      .success (sanitizeScores ⟨some 72, some "ok", some 65,
        some ⟨some ["consistent formatting"], some [], some []⟩⟩) ∧
    0 ≤ (sanitizeScores ⟨some 72, some "ok", some 65,
        some ⟨some ["consistent formatting"], some [], some []⟩⟩).vciScore :=
  ⟨(gatherer_partial_failure_tolerance ⟨.response 404, 1, []⟩ ⟨.response 404, 1, []⟩
      ⟨.response 200, 1, []⟩ none none []
      (fun _ => AttemptOutcome.resp 404) (fun _ => AttemptOutcome.resp 404)
      (fun _ => AttemptOutcome.resp 200) (fun _ => AttemptOutcome.resp 200)
      (fun _ => 0) (fun _ => 0) (fun _ => 0) (fun _ => 0)
      (some ⟨some 72, some "ok", some 65, some ⟨some ["consistent formatting"], some [], some []⟩⟩)
      200 rfl rfl rfl (by norm_num)).2.2.2.2.2.2.2.2.1,
    (gatherer_partial_failure_tolerance ⟨.response 404, 1, []⟩ ⟨.response 404, 1, []⟩
      ⟨.response 200, 1, []⟩ none none []
      (fun _ => AttemptOutcome.resp 404) (fun _ => AttemptOutcome.resp 404)
      (fun _ => AttemptOutcome.resp 200) (fun _ => AttemptOutcome.resp 200)
      (fun _ => 0) (fun _ => 0) (fun _ => 0) (fun _ => 0)
      (some ⟨some 72, some "ok", some 65, some ⟨some ["consistent formatting"], some [], some []⟩⟩)
      200 rfl rfl rfl (by norm_num)).2.2.2.2.2.2.2.2.2.1⟩

/-- C8: when the inference endpoint fails on every attempt across the full
retry budget (500 every time, or a transport exception every time), or
ends with a non-retryable 4xx failure on the first attempt, the handler
answers with the 500 error body — never with a degraded or fallback
AnalysisResult. -/
theorem inference_failure_is_fatal (u : String) (info : GitHubRepo)
    (hne : u ≠ "") (hp : parseGitHubUrl u = some info)
    (readmeF manifestF commitsF inferF : Nat → AttemptOutcome)
    (randR randM randC randI : Nat → ℚ)
    (bR bM : Option String) (bC : List CommitInfo)
    (completion : Option (Option CompletionJson)) :
    ((∀ n, inferF n = .resp 500) →
      handler true true (some u) readmeF manifestF commitsF inferF
          randR randM randC randI bR bM bC completion = .serverError) ∧
    (∀ s, 400 ≤ s → s < 500 → s ≠ 429 → inferF 0 = .resp s →
      handler true true (some u) readmeF manifestF commitsF inferF
          randR randM randC randI bR bM bC completion = .serverError) ∧
    ((∀ n, inferF n = .exn) →
      handler true true (some u) readmeF manifestF commitsF inferF
          randR randM randC randI bR bM bC completion = .serverError) := by
  refine ⟨?_, ?_, ?_⟩
  · intro h500
    rw [handler_run u info readmeF manifestF commitsF inferF
      randR randM randC randI bR bM bC completion hne hp]
    have e3 := fwebGo_zero_resp inferF randI 1000 3 500 (h500 3)
    have e2 := fwebGo_succ_resp_retry inferF randI 1000 2 0 500 (h500 2) (by norm_num) (by norm_num)
    have e1 := fwebGo_succ_resp_retry inferF randI 1000 1 1 500 (h500 1) (by norm_num) (by norm_num)
    have e0 := fwebGo_succ_resp_retry inferF randI 1000 0 2 500 (h500 0) (by norm_num) (by norm_num)
    have htrace : (fetchWithExponentialBackoff inferF randI 3 1000).result =
        .response 500 := by
      unfold fetchWithExponentialBackoff
      rw [e0, e1, e2, e3]
      rfl
    rw [htrace]
    dsimp only
    rw [if_pos (by norm_num)]
  · intro s h4a h4b h4c h0
    rw [handler_run u info readmeF manifestF commitsF inferF
      randR randM randC randI bR bM bC completion hne hp]
    have htrace : fetchWithExponentialBackoff inferF randI 3 1000 =
        ⟨.response s, 1, []⟩ :=
      fwebGo_resp_immediate inferF randI 1000 0 3 s h0 (Or.inr ⟨h4a, h4b, h4c⟩)
    rw [htrace]
    dsimp only
    rw [if_pos (by omega)]
  · intro hexn
    rw [handler_run u info readmeF manifestF commitsF inferF
      randR randM randC randI bR bM bC completion hne hp]
    have e3 := fwebGo_zero_exn inferF randI 1000 3 (hexn 3)
    have e2 := fwebGo_succ_exn inferF randI 1000 2 0 (hexn 2)
    have e1 := fwebGo_succ_exn inferF randI 1000 1 1 (hexn 1)
    have e0 := fwebGo_succ_exn inferF randI 1000 0 2 (hexn 0)
    have htrace : (fetchWithExponentialBackoff inferF randI 3 1000).result =
        .thrown := by
      unfold fetchWithExponentialBackoff
      rw [e0, e1, e2, e3]
      rfl
    rw [htrace]

/-- C8 witness: a valid locator with the inference endpoint returning 500
on every attempt yields the 500 error body. -/
theorem inference_failure_is_fatal_witness :
    handler true true (some "https://github.com/acme/widgets")
        (fun _ => AttemptOutcome.resp 200) (fun _ => AttemptOutcome.resp 200)
        (fun _ => AttemptOutcome.resp 200) (fun _ => AttemptOutcome.resp 500)
        (fun _ => 0) (fun _ => 0) (fun _ => 0) (fun _ => 0)
        none none [] none = .serverError :=
  (inference_failure_is_fatal "https://github.com/acme/widgets" ⟨"acme", "widgets"⟩
    (by decide) (by rfl)
    (fun _ => AttemptOutcome.resp 200) (fun _ => AttemptOutcome.resp 200)
    (fun _ => AttemptOutcome.resp 200) (fun _ => AttemptOutcome.resp 500)
    (fun _ => 0) (fun _ => 0) (fun _ => 0) (fun _ => 0)
    none none [] none).1 (fun _ => rfl)

/-- C9: prompt assembly is a pure function of the locator URL and the
gathered snapshot — two calls on identical inputs produce byte-identical
prompt strings; there is no randomness, time, or I/O in its definition. -/
theorem prompt_assembly_deterministic (u1 u2 : String) (d1 d2 : RepoData)
    (hu : u1 = u2) (hd : d1 = d2) :
    createDetailedAnalysisPrompt u1 d1 = createDetailedAnalysisPrompt u2 d2 := by
  rw [hu, hd]

/-- C9 witness: a concrete snapshot assembled twice gives the same
prompt. -/
theorem prompt_assembly_deterministic_witness :
    createDetailedAnalysisPrompt "https://github.com/acme/widgets"
        ⟨some "A readme", [⟨"package.json", "x", "package.json"⟩],
          [⟨"init", "alice", "2024-01-01"⟩]⟩ =
      createDetailedAnalysisPrompt "https://github.com/acme/widgets"
        ⟨some "A readme", [⟨"package.json", "x", "package.json"⟩],
          [⟨"init", "alice", "2024-01-01"⟩]⟩ :=
  prompt_assembly_deterministic _ _ _ _ rfl rfl

end AnalyzeRepo
